import Mathlib

/-
Shallow embedding of the Cloudinary upload library (src/src/lib.rs).

The library has three functions:
  * sign_request       : SHA-256 signing of the canonical parameter string
  * generate_upload_endpoint : assembly of the authenticated upload URI
  * upload_media       : one streaming HTTP POST and JSON decoding

Machine integers are modelled as Nat with explicit reduction modulo 2 ^ 32
where the SHA-256 word arithmetic overflows.  The process environment, the
wall clock and the HTTP transport are passed in explicitly.  A Rust panic
(`expect` / `unwrap`) is modelled by the `PanicOr` type, distinct from the
recoverable `Except` results returned by `upload_media`.
-/

namespace Cloudinary

/-! ## SHA-256 (the `ring::digest::SHA256` primitive used by `sign_request`),
implemented from FIPS 180-4 over byte lists. -/

/-- Right rotation of a 32-bit word represented as a Nat below 2 ^ 32. -/
def rotr (n x : Nat) : Nat := x % 2 ^ n * 2 ^ (32 - n) + x / 2 ^ n

/-- Logical right shift. -/
def shr (n x : Nat) : Nat := x / 2 ^ n

/-- SHA-256 big sigma 0. -/
def bigSigma0 (x : Nat) : Nat := Nat.xor (Nat.xor (rotr 2 x) (rotr 13 x)) (rotr 22 x)

/-- SHA-256 big sigma 1. -/
def bigSigma1 (x : Nat) : Nat := Nat.xor (Nat.xor (rotr 6 x) (rotr 11 x)) (rotr 25 x)

/-- SHA-256 small sigma 0. -/
def smallSigma0 (x : Nat) : Nat := Nat.xor (Nat.xor (rotr 7 x) (rotr 18 x)) (shr 3 x)

/-- SHA-256 small sigma 1. -/
def smallSigma1 (x : Nat) : Nat := Nat.xor (Nat.xor (rotr 17 x) (rotr 19 x)) (shr 10 x)

/-- SHA-256 choice function; the complement is taken inside 32 bits. -/
def ch (x y z : Nat) : Nat := Nat.xor (Nat.land x y) (Nat.land (2 ^ 32 - 1 - x % 2 ^ 32) z)

/-- SHA-256 majority function. -/
def maj (x y z : Nat) : Nat := Nat.xor (Nat.xor (Nat.land x y) (Nat.land x z)) (Nat.land y z)

/-- The 64 SHA-256 round constants. -/
def shaK : List Nat :=
  [1116352408, 1899447441, 3049323471, 3921009573, 961987163, 1508970993, 2453635748,
   2870763221, 3624381080, 310598401, 607225278, 1426881987, 1925078388, 2162078206,
   2614888103, 3248222580, 3835390401, 4022224774, 264347078, 604807628, 770255983,
   1249150122, 1555081692, 1996064986, 2554220882, 2821834349, 2952996808, 3210313671,
   3336571891, 3584528711, 113926993, 338241895, 666307205, 773529912, 1294757372,
   1396182291, 1695183700, 1986661051, 2177026350, 2456956037, 2730485921, 2820302411,
   3259730800, 3345764771, 3516065817, 3600352804, 4094571909, 275423344, 430227734,
   506948616, 659060556, 883997877, 958139571, 1322822218, 1537002063, 1747873779,
   1955562222, 2024104815, 2227730452, 2361852424, 2428436474, 2756734187, 3204031479,
   3329325298]

/-- The SHA-256 initial hash value. -/
def shaH0 : List Nat :=
  [1779033703, 3144134277, 1013904242, 2773480762, 1359893119, 2600822924, 528734635,
   1541459225]

/-- The eight working registers of the compression loop. -/
structure Regs where
  a : Nat
  b : Nat
  c : Nat
  d : Nat
  e : Nat
  f : Nat
  g : Nat
  h : Nat

/-- One SHA-256 compression round; the pair carries the round constant and the
schedule word. -/
def roundStep (kw : Nat × Nat) (r : Regs) : Regs :=
  let t1 := (r.h + bigSigma1 r.e + ch r.e r.f r.g + kw.1 + kw.2) % 2 ^ 32
  let t2 := (bigSigma0 r.a + maj r.a r.b r.c) % 2 ^ 32
  { a := (t1 + t2) % 2 ^ 32, b := r.a, c := r.b, d := r.c,
    e := (r.d + t1) % 2 ^ 32, f := r.e, g := r.f, h := r.g }

/-- Fold the compression rounds over the constant/schedule pairs. -/
def roundsFold : List (Nat × Nat) → Regs → Regs
  | [], r => r
  | kw :: rest, r => roundsFold rest (roundStep kw r)

/-- The next message-schedule word computed from the last 16 words. -/
def nextW (w : List Nat) : Nat :=
  (smallSigma1 (w.getD (w.length - 2) 0) + w.getD (w.length - 7) 0
    + smallSigma0 (w.getD (w.length - 15) 0) + w.getD (w.length - 16) 0) % 2 ^ 32

/-- Extend the 16-word schedule by the given number of words. -/
def extendW : Nat → List Nat → List Nat
  | 0, w => w
  | n + 1, w => extendW n (w ++ [nextW w])

/-- Pack bytes into big-endian 32-bit words. -/
def bytesToWords : List Nat → List Nat
  | b0 :: b1 :: b2 :: b3 :: rest =>
      (b0 * 2 ^ 24 + b1 * 2 ^ 16 + b2 * 2 ^ 8 + b3) :: bytesToWords rest
  | _ => []

/-- Compress one 64-byte block into the running hash value. -/
def processBlock (hs : List Nat) (block : List Nat) : List Nat :=
  let w := extendW 48 (bytesToWords block)
  let r0 : Regs :=
    ⟨hs.getD 0 0, hs.getD 1 0, hs.getD 2 0, hs.getD 3 0,
     hs.getD 4 0, hs.getD 5 0, hs.getD 6 0, hs.getD 7 0⟩
  let r := roundsFold (shaK.zip w) r0
  [(r.a + hs.getD 0 0) % 2 ^ 32, (r.b + hs.getD 1 0) % 2 ^ 32,
   (r.c + hs.getD 2 0) % 2 ^ 32, (r.d + hs.getD 3 0) % 2 ^ 32,
   (r.e + hs.getD 4 0) % 2 ^ 32, (r.f + hs.getD 5 0) % 2 ^ 32,
   (r.g + hs.getD 6 0) % 2 ^ 32, (r.h + hs.getD 7 0) % 2 ^ 32]

/-- Process a padded message 64 bytes at a time; the fuel bounds the number of
blocks and is instantiated with the message length, which is ample. -/
def processBlocks : Nat → List Nat → List Nat → List Nat
  | 0, hs, _ => hs
  | fuel + 1, hs, msg =>
      match msg with
      | [] => hs
      | _ :: _ => processBlocks fuel (processBlock hs (msg.take 64)) (msg.drop 64)

/-- The eight-byte big-endian encoding of the bit length. -/
def lenBytes64 (n : Nat) : List Nat :=
  [n / 2 ^ 56 % 256, n / 2 ^ 48 % 256, n / 2 ^ 40 % 256, n / 2 ^ 32 % 256,
   n / 2 ^ 24 % 256, n / 2 ^ 16 % 256, n / 2 ^ 8 % 256, n % 256]

/-- SHA-256 padding: append 0x80, zeros to 56 mod 64, then the bit length. -/
def padMessage (msg : List Nat) : List Nat :=
  msg ++ 128 :: (List.replicate ((119 - msg.length % 64) % 64) 0 ++ lenBytes64 (8 * msg.length))

/-- Big-endian bytes of a 32-bit word. -/
def wordBytes (w : Nat) : List Nat := [w / 2 ^ 24 % 256, w / 2 ^ 16 % 256, w / 2 ^ 8 % 256, w % 256]

/-- Concatenation of a list of lists. -/
def concatAll : List (List α) → List α
  | [] => []
  | l :: ls => l ++ concatAll ls

/-- The SHA-256 digest of a byte list, as 32 bytes. -/
def sha256 (msg : List Nat) : List Nat :=
  let padded := padMessage msg
  concatAll ((processBlocks (padded.length + 1) shaH0 padded).map wordBytes)

/-! ## Hex rendering (`data_encoding::HEXLOWER`), UTF-8 bytes and decimal
rendering (`u64::to_string`). -/

/-- The sixteen lowercase hexadecimal digits. -/
def hexLowerChars : List Char := "0123456789abcdef".data

/-- Two lowercase hex characters of one byte. -/
def byteHex (b : Nat) : List Char :=
  [hexLowerChars.getD (b / 16 % 16) '0', hexLowerChars.getD (b % 16) '0']

/-- Lowercase hex encoding of a byte list. -/
def hexEncode (bs : List Nat) : List Char := concatAll (bs.map byteHex)

/-- UTF-8 encoding of one character, as produced by `String::as_bytes`. -/
def utf8EncodeChar (c : Char) : List Nat :=
  let n := c.toNat
  if n < 128 then [n]
  else if n < 2048 then [192 + n / 64, 128 + n % 64]
  else if n < 65536 then [224 + n / 4096, 128 + n / 64 % 64, 128 + n % 64]
  else [240 + n / 262144, 128 + n / 4096 % 64, 128 + n / 64 % 64, 128 + n % 64]

/-- The UTF-8 bytes of a string. -/
def utf8Bytes (s : String) : List Nat := concatAll (s.data.map utf8EncodeChar)

/-- One decimal digit character. -/
def decDigit (n : Nat) : Char := hexLowerChars.getD (n % 10) '0'

/-- Accumulator loop for decimal rendering; the fuel bounds the digit count. -/
def natToDecAux : Nat → Nat → List Char → List Char
  | 0, _, acc => acc
  | fuel + 1, n, acc =>
      if n < 10 then decDigit n :: acc
      else natToDecAux fuel (n / 10) (decDigit n :: acc)

/-- Decimal rendering of a natural number, as `u64::to_string` produces. -/
def natToDec (n : Nat) : List Char := natToDecAux (n + 1) n []

/-! ## sign_request -/

/-- The lowercase hex SHA-256 digest of the UTF-8 bytes of a string: the
composition of steps 4 and 5 of the signing algorithm. -/
def sha256HexOfString (s : String) : String := String.mk (hexEncode (sha256 (utf8Bytes s)))

/-- Embedding of `sign_request`: build `"timestamp=" ++ timestamp ++ secret`
and take its lowercase hex SHA-256 digest.  The API secret, read by the Rust
code from the `API_SECRET` lazy static, is passed explicitly. -/
def sign_request (api_secret : String) (timestamp : Nat) : String :=
  sha256HexOfString ("timestamp=" ++ String.mk (natToDec timestamp) ++ api_secret)

/-! ## Data model -/

/-- The two-variant visibility tag (`UploadPrivacy` in the source). -/
inductive UploadPrivacy where
  | Public
  | Private

/-- The three credential lazy statics `API_KEY`, `API_SECRET`, `CLOUD_NAME`,
passed explicitly instead of read from the process environment. -/
structure Env where
  api_key : String
  api_secret : String
  cloud_name : String

/-- Result of a computation that may hit a Rust panic (`expect` / `unwrap`).
A panic is unrecoverable and distinct from the `Except` results that
`upload_media` returns to its caller. -/
inductive PanicOr (α : Type) where
  | panicked (msg : String)
  | ok (a : α)
  deriving DecidableEq

/-- An absolute URI as assembled by `Uri::builder()`: fixed scheme and
authority plus the parsed path-and-query string. -/
structure Uri where
  scheme : String
  authority : String
  pathAndQuery : List Char
  deriving DecidableEq

/-- Split a path-and-query string at the first question mark, as the `http`
crate does when `PathAndQuery` is parsed: everything before the first
question mark is the path, everything after it is the query. -/
def splitQ : List Char → List Char × List Char
  | [] => ([], [])
  | c :: cs => if c = '?' then ([], cs) else ((splitQ cs).1.cons c, (splitQ cs).2)

/-- The path component of a URI. -/
def uriPath (u : Uri) : List Char := (splitQ u.pathAndQuery).1

/-- The query component of a URI. -/
def uriQuery (u : Uri) : List Char := (splitQ u.pathAndQuery).2

/-- Split a query string into its ampersand-separated pieces. -/
def splitAmp : List Char → List (List Char)
  | [] => [[]]
  | c :: cs =>
      if c = '&' then [] :: splitAmp cs
      else
        match splitAmp cs with
        | [] => [[c]]
        | g :: gs => (c :: g) :: gs

/-- Split one query piece at its first equals sign into name and value. -/
def splitFirstEq : List Char → List Char × List Char
  | [] => ([], [])
  | c :: cs => if c = '=' then ([], cs) else ((splitFirstEq cs).1.cons c, (splitFirstEq cs).2)

/-- The name/value pairs of a query string. -/
def parseQuery (q : List Char) : List (List Char × List Char) := (splitAmp q).map splitFirstEq

/-! ## generate_upload_endpoint -/

/-- The path segment the source code actually selects for a visibility value.

The Rust source writes

  match privacy \x7b
    Public => format!("/v1_1/.../auto/upload?...", ...),
    Private => format!("/v1_1/.../auto/private?...", ...),
  \x7d

where `privacy` has type `&UploadPrivacy`.  The enum variants are in scope
only as `UploadPrivacy::Public` and `UploadPrivacy::Private`; the bare
identifiers `Public` and `Private` in pattern position are therefore fresh
irrefutable binding patterns, not variant paths.  The first arm binds every
value, the second arm is unreachable (rustc reports an unreachable-pattern
warning), and the `upload` segment is selected for both variants. -/
def selected_segment (_ : UploadPrivacy) : String := "upload"

/-- The path segment the spec assigns to each visibility value, written from
the spec sentence "Public → /v1_1/\x7bcloud\x7d/auto/upload; Private →
/v1_1/\x7bcloud\x7d/auto/private" for comparison with `selected_segment`. -/
def spec_segment : UploadPrivacy → String
  | UploadPrivacy.Public => "upload"
  | UploadPrivacy.Private => "private"

/-- The formatted path-and-query string of the upload endpoint for a given
path segment, exactly as the `format!` template builds it. -/
def formatPathAndQuery (env : Env) (timestamp : Nat) (seg : String) : List Char :=
  ("/v1_1/" ++ env.cloud_name ++ "/auto/" ++ seg ++ "?api_key=" ++ env.api_key
      ++ "&timestamp=").data
    ++ natToDec timestamp
    ++ ("&signature=" ++ sign_request env.api_secret timestamp).data

/-- A character the `http` crate accepts in the path section of a
`PathAndQuery`.  `PathAndQuery::from_shared` admits exactly the bytes
0x21, 0x24-0x3B, 0x3D, 0x40-0x5F, 0x61-0x7A, 0x7C and 0x7E there; every
other byte is `InvalidUriChar` except `?` (start of query) and `#` (start
of fragment), which the scanner handles separately.  The check is stated on
characters: an ASCII character is one byte with its own code, and every
byte of a non-ASCII character is at least 0x80, which no range admits, so
the character-level scan agrees with the crate's byte-level scan. -/
def pathAllowedChar (c : Char) : Bool :=
  decide (c = '!') || (decide ('$' ≤ c) && decide (c ≤ ';')) || decide (c = '=')
    || (decide ('@' ≤ c) && decide (c ≤ '_')) || (decide ('a' ≤ c) && decide (c ≤ 'z'))
    || decide (c = '|') || decide (c = '~')

/-- A character the `http` crate accepts in the query section: the bytes
0x21, 0x24-0x3B, 0x3D and 0x3F-0x7E; anything else is `InvalidUriChar`
except `#`, which starts the fragment. -/
def queryAllowedChar (c : Char) : Bool :=
  decide (c = '!') || (decide ('$' ≤ c) && decide (c ≤ ';')) || decide (c = '=')
    || (decide ('?' ≤ c) && decide (c ≤ '~'))

/-- The query scan of `PathAndQuery::from_shared`, after the first question
mark: a `#` starts the fragment, which is truncated away (the scanned
prefix is kept); an invalid character is an error. -/
def pqScanQuery : List Char → Except String (List Char)
  | [] => Except.ok []
  | c :: cs =>
      if c = '#' then Except.ok []
      else if queryAllowedChar c then (pqScanQuery cs).map (fun r => c :: r)
      else Except.error "InvalidUriChar"

/-- The path scan of `PathAndQuery::from_shared`: the first `?` switches to
the query scan, a `#` starts the fragment, which is truncated away, and an
invalid character is an error. -/
def pqScanPath : List Char → Except String (List Char)
  | [] => Except.ok []
  | c :: cs =>
      if c = '?' then (pqScanQuery cs).map (fun r => '?' :: r)
      else if c = '#' then Except.ok []
      else if pathAllowedChar c then (pqScanPath cs).map (fun r => c :: r)
      else Except.error "InvalidUriChar"

/-- `str::parse::<PathAndQuery>()`: validate the formatted string and drop
any fragment, returning the data the parsed `PathAndQuery` retains. -/
def parsePathAndQuery (s : List Char) : Except String (List Char) := pqScanPath s

/-- Embedding of `generate_upload_endpoint` after the timestamp has been read
from the clock: sign the timestamp, format the path and query for the
segment the match actually selects, parse it as a `PathAndQuery` — the
`.parse().unwrap()` of the source panics when the formatted string holds a
URI-invalid byte — and assemble the absolute URI with scheme `https` and
authority `api.cloudinary.com`.  The final `Uri::builder()...build().unwrap()`
cannot fail: the scheme and authority are valid constants and the
path-and-query has just been parsed. -/
def generate_upload_endpoint (env : Env) (timestamp : Nat) (privacy : UploadPrivacy) :
    PanicOr Uri :=
  match parsePathAndQuery (formatPathAndQuery env timestamp (selected_segment privacy)) with
  | Except.error e => PanicOr.panicked e
  | Except.ok pq =>
      PanicOr.ok { scheme := "https", authority := "api.cloudinary.com", pathAndQuery := pq }

/-- The clock read at the top of `generate_upload_endpoint`:
`SystemTime::now().duration_since(UNIX_EPOCH).unwrap().as_secs()`.  The
current wall-clock time is passed as signed seconds since the epoch;
`duration_since` fails for times before the epoch and the `unwrap` turns
that failure into a panic. -/
def epochSeconds (now : Int) : PanicOr Nat :=
  if now < 0 then PanicOr.panicked "SystemTimeError" else PanicOr.ok now.toNat

/-- `generate_upload_endpoint` including its clock read: panics when the
clock is before the Unix epoch, otherwise behaves as
`generate_upload_endpoint`, whose own parse step may still panic. -/
def generate_upload_endpoint_clock (env : Env) (now : Int) (privacy : UploadPrivacy) :
    PanicOr Uri :=
  match epochSeconds now with
  | PanicOr.panicked msg => PanicOr.panicked msg
  | PanicOr.ok t => generate_upload_endpoint env t privacy

/-! ## JSON values and parsing (the `serde_json` decoding behind
`response.json::<UploadResponse>()`) -/

/-- A JSON value; numbers keep their raw digits, which the decoder of
`UploadResponse` never inspects. -/
inductive Json where
  | null
  | bool (b : Bool)
  | num (raw : List Char)
  | str (s : List Char)
  | arr (elems : List Json)
  | obj (fields : List (List Char × Json))

/-- JSON insignificant whitespace. -/
def isJsonWs (c : Char) : Bool := c = ' ' || c = '\n' || c = '\t' || c = '\r'

/-- Drop leading JSON whitespace. -/
def skipWs : List Char → List Char
  | [] => []
  | c :: cs => if isJsonWs c then skipWs cs else c :: cs

/-- The value of a hexadecimal digit, if any. -/
def hexVal (c : Char) : Option Nat :=
  if '0' ≤ c ∧ c ≤ '9' then some (c.toNat - 48)
  else if 'a' ≤ c ∧ c ≤ 'f' then some (c.toNat - 87)
  else if 'A' ≤ c ∧ c ≤ 'F' then some (c.toNat - 55)
  else none

/-- The character denoted by a single-character JSON escape, if any. -/
def escChar (c : Char) : Option Char :=
  if c = '"' then some '"'
  else if c = '\\' then some '\\'
  else if c = '/' then some '/'
  else if c = 'n' then some '\n'
  else if c = 't' then some '\t'
  else if c = 'r' then some '\r'
  else if c = 'b' then some (Char.ofNat 8)
  else if c = 'f' then some (Char.ofNat 12)
  else none

/-- Read a JSON string body after its opening quote, returning the decoded
characters and the rest of the input after the closing quote. -/
def parseStringBody : Nat → List Char → Except String (List Char × List Char)
  | 0, _ => Except.error "recursion limit exceeded"
  | _ + 1, [] => Except.error "unterminated string"
  | fuel + 1, c :: cs =>
      if c = '"' then Except.ok ([], cs)
      else if c = '\\' then
        match cs with
        | [] => Except.error "unterminated escape"
        | 'u' :: h1 :: h2 :: h3 :: h4 :: cs2 =>
            match hexVal h1, hexVal h2, hexVal h3, hexVal h4 with
            | some a, some b, some c3, some d =>
                let n := a * 4096 + b * 256 + c3 * 16 + d
                if 55296 ≤ n ∧ n < 57344 then Except.error "unsupported surrogate escape"
                else
                  (parseStringBody fuel cs2).map (fun p => (Char.ofNat n :: p.1, p.2))
            | _, _, _, _ => Except.error "invalid unicode escape"
        | e :: cs2 =>
            match escChar e with
            | none => Except.error "invalid escape"
            | some r => (parseStringBody fuel cs2).map (fun p => (r :: p.1, p.2))
      else (parseStringBody fuel cs).map (fun p => (c :: p.1, p.2))

/-- A character that may occur in a JSON number token. -/
def isNumChar (c : Char) : Bool :=
  ('0' ≤ c && c ≤ '9') || c = '-' || c = '+' || c = '.' || c = 'e' || c = 'E'

/-- Take the longest prefix of number characters. -/
def takeNum : List Char → List Char × List Char
  | [] => ([], [])
  | c :: cs =>
      if isNumChar c then ((takeNum cs).1.cons c, (takeNum cs).2)
      else ([], c :: cs)

/-- The three intermediate results of the recursive-descent JSON parser:
a single value, the members of an object, or the elements of an array. -/
inductive PRes where
  | val (j : Json)
  | members (fs : List (List Char × Json))
  | elems (es : List Json)

/-- Recursive-descent JSON parser, structurally recursive on fuel.  The mode
argument selects what is parsed: 0 a value, 1 the members of an object after
its opening brace, 2 the elements of an array after its opening bracket. -/
def parseP : Nat → Nat → List Char → Except String (PRes × List Char)
  | 0, _, _ => Except.error "recursion limit exceeded"
  | fuel + 1, 0, input =>
      match skipWs input with
      | [] => Except.error "unexpected end of input"
      | c :: cs =>
          if c = '"' then
            (parseStringBody (fuel + 1) cs).map (fun p => (PRes.val (Json.str p.1), p.2))
          else if c = 'n' then
            if ['u', 'l', 'l'].isPrefixOf cs then Except.ok (PRes.val Json.null, cs.drop 3)
            else Except.error "invalid literal"
          else if c = 't' then
            if ['r', 'u', 'e'].isPrefixOf cs then
              Except.ok (PRes.val (Json.bool true), cs.drop 3)
            else Except.error "invalid literal"
          else if c = 'f' then
            if ['a', 'l', 's', 'e'].isPrefixOf cs then
              Except.ok (PRes.val (Json.bool false), cs.drop 4)
            else Except.error "invalid literal"
          else if c = '\x7b' then
            match skipWs cs with
            | '\x7d' :: rest => Except.ok (PRes.val (Json.obj []), rest)
            | rest =>
                match parseP fuel 1 rest with
                | Except.ok (PRes.members fs, rest2) => Except.ok (PRes.val (Json.obj fs), rest2)
                | Except.ok _ => Except.error "parser invariant"
                | Except.error e => Except.error e
          else if c = '[' then
            match skipWs cs with
            | ']' :: rest => Except.ok (PRes.val (Json.arr []), rest)
            | rest =>
                match parseP fuel 2 rest with
                | Except.ok (PRes.elems es, rest2) => Except.ok (PRes.val (Json.arr es), rest2)
                | Except.ok _ => Except.error "parser invariant"
                | Except.error e => Except.error e
          else if c = '-' || ('0' ≤ c && c ≤ '9') then
            match takeNum (c :: cs) with
            | (raw, rest) => Except.ok (PRes.val (Json.num raw), rest)
          else Except.error "unexpected character"
  | fuel + 1, 1, input =>
      match skipWs input with
      | '"' :: cs =>
          match parseStringBody (fuel + 1) cs with
          | Except.error e => Except.error e
          | Except.ok (key, rest) =>
              match skipWs rest with
              | ':' :: rest2 =>
                  match parseP fuel 0 rest2 with
                  | Except.ok (PRes.val v, rest3) =>
                      (match skipWs rest3 with
                       | ',' :: rest4 =>
                           match parseP fuel 1 rest4 with
                           | Except.ok (PRes.members fs, rest5) =>
                               Except.ok (PRes.members ((key, v) :: fs), rest5)
                           | Except.ok _ => Except.error "parser invariant"
                           | Except.error e => Except.error e
                       | '\x7d' :: rest4 => Except.ok (PRes.members [(key, v)], rest4)
                       | _ => Except.error "expected comma or closing brace")
                  | Except.ok _ => Except.error "parser invariant"
                  | Except.error e => Except.error e
              | _ => Except.error "expected colon"
      | _ => Except.error "expected string key"
  | fuel + 1, _, input =>
      match parseP fuel 0 input with
      | Except.ok (PRes.val v, rest) =>
          (match skipWs rest with
           | ',' :: rest2 =>
               match parseP fuel 2 rest2 with
               | Except.ok (PRes.elems es, rest3) => Except.ok (PRes.elems (v :: es), rest3)
               | Except.ok _ => Except.error "parser invariant"
               | Except.error e => Except.error e
           | ']' :: rest2 => Except.ok (PRes.elems [v], rest2)
           | _ => Except.error "expected comma or closing bracket")
      | Except.ok _ => Except.error "parser invariant"
      | Except.error e => Except.error e

/-- Parse a whole JSON document: one value followed only by whitespace. -/
def parseJson (body : String) : Except String Json :=
  match parseP (4 * body.data.length + 16) 0 body.data with
  | Except.error e => Except.error e
  | Except.ok (PRes.val j, rest) =>
      if skipWs rest = [] then Except.ok j else Except.error "trailing characters"
  | Except.ok _ => Except.error "parser invariant"

/-! ## UploadResponse decoding -/

/-- The decoded provider response (`UploadResponse` in the source): only the
`asset_id` field is kept. -/
structure UploadResponse where
  asset_id : String
  deriving DecidableEq

/-- Walk the members of the response object as serde does for a derived
struct: remember the `asset_id` string when it appears, reject a duplicate
or a non-string value, skip every unknown field, and require the field to
be present at the end. -/
def findAssetId : List (List Char × Json) → Option (List Char) → Except String (List Char)
  | [], none => Except.error "missing field asset_id"
  | [], some s => Except.ok s
  | (k, v) :: rest, acc =>
      if k = "asset_id".data then
        match acc with
        | some _ => Except.error "duplicate field asset_id"
        | none =>
            match v with
            | Json.str s => findAssetId rest (some s)
            | _ => Except.error "invalid type for asset_id"
      else findAssetId rest acc

/-- Decode an `UploadResponse` from a JSON value: the document must be an
object and must contain `asset_id` exactly once, with a string value. -/
def decodeJson : Json → Except String UploadResponse
  | Json.obj fields => (findAssetId fields none).map (fun s => ⟨String.mk s⟩)
  | _ => Except.error "invalid type, expected an object"

/-- Decode an `UploadResponse` from a response body:
`response.json::<UploadResponse>()`. -/
def decodeUploadResponse (body : String) : Except String UploadResponse :=
  match parseJson body with
  | Except.error e => Except.error e
  | Except.ok j => decodeJson j

/-! ## upload_media -/

/-- A transport-level send failure; `msg` is the textual description that
`e.to_string()` yields in the source. -/
structure SendError where
  msg : String

/-- Embedding of `upload_media` after the credentials and the timestamp are
available.  Building the endpoint may panic (the parse unwrap); otherwise
the HTTP exchange — a function from the request URI and the streamed file
bytes to either a transport error or a response body — is consulted exactly
once via `client.post(uri).send_stream(stream)`, a transport failure
message is wrapped via `anyhow!(e.to_string())`, and on success the body is
decoded as JSON. -/
def upload_media (env : Env) (timestamp : Nat) (privacy : UploadPrivacy)
    (file : List Nat) (transport : Uri → List Nat → Except SendError String) :
    PanicOr (Except String UploadResponse) :=
  match generate_upload_endpoint env timestamp privacy with
  | PanicOr.panicked m => PanicOr.panicked m
  | PanicOr.ok uri =>
      PanicOr.ok (match transport uri file with
        | Except.error e => Except.error e.msg
        | Except.ok body => decodeUploadResponse body)

/-- Dereference of one credential lazy static:
`env::var(name).expect(name ++ " env not set")`. -/
def loadEnvVar (sysEnv : String → Option String) (name : String) : PanicOr String :=
  match sysEnv name with
  | some v => PanicOr.ok v
  | none => PanicOr.panicked (name ++ " env not set")

/-- `upload_media` together with the lazy credential reads and the clock
read it triggers, in the order the source forces them: the clock first, then
`API_SECRET` (inside `sign_request`), then `CLOUD_NAME` and `API_KEY`
(inside the `format!`), then the path-and-query parse, and only then the
HTTP send.  The second component counts the HTTP exchanges performed: 0
when any panic fires first — a missing credential, a pre-epoch clock or a
URI-invalid byte — and 1 when the single send is reached. -/
def upload_media_app (sysEnv : String → Option String) (now : Int)
    (privacy : UploadPrivacy) (file : List Nat)
    (transport : Uri → List Nat → Except SendError String) :
    PanicOr (Except String UploadResponse) × Nat :=
  match epochSeconds now with
  | PanicOr.panicked m => (PanicOr.panicked m, 0)
  | PanicOr.ok t =>
      match loadEnvVar sysEnv "CLOUDINARY_API_SECRET" with
      | PanicOr.panicked m => (PanicOr.panicked m, 0)
      | PanicOr.ok secret =>
          match loadEnvVar sysEnv "CLOUDINARY_CLOUD_NAME" with
          | PanicOr.panicked m => (PanicOr.panicked m, 0)
          | PanicOr.ok cloud =>
              match loadEnvVar sysEnv "CLOUDINARY_API_KEY" with
              | PanicOr.panicked m => (PanicOr.panicked m, 0)
              | PanicOr.ok key =>
                  match generate_upload_endpoint ⟨key, secret, cloud⟩ t privacy with
                  | PanicOr.panicked m => (PanicOr.panicked m, 0)
                  | PanicOr.ok _ =>
                      (upload_media ⟨key, secret, cloud⟩ t privacy file transport, 1)

/-- Signing as a function of the whole credential environment: only the
secret enters `sign_request`. -/
def signWithEnv (env : Env) (timestamp : Nat) : String := sign_request env.api_secret timestamp

/-- The property C5 claims for the endpoint URI: a URI is returned (no
panic) with scheme `https`, authority `api.cloudinary.com`, a path starting
with `/v1_1/<cloud>/auto/`, and a query consisting of exactly the three
parameters `api_key`, `timestamp`, `signature` in that literal order, each
with a non-empty value. -/
def endpointClaimCheck (env : Env) (t : Nat) (p : UploadPrivacy) : Bool :=
  match generate_upload_endpoint env t p with
  | PanicOr.panicked _ => false
  | PanicOr.ok u =>
      u.scheme == "https" && u.authority == "api.cloudinary.com" &&
      ("/v1_1/" ++ env.cloud_name ++ "/auto/").data.isPrefixOf (uriPath u) &&
      (match parseQuery (uriQuery u) with
       | [(k1, v1), (k2, v2), (k3, v3)] =>
           k1 == "api_key".data && k2 == "timestamp".data && k3 == "signature".data &&
           !v1.isEmpty && !v2.isEmpty && !v3.isEmpty
       | _ => false)

/-- A lowercase hexadecimal digit. -/
def isLowerHexDigit (c : Char) : Bool :=
  (decide ('0' ≤ c) && decide (c ≤ '9')) || (decide ('a' ≤ c) && decide (c ≤ 'f'))

/-! ## Shape lemmas for the hex digest -/

theorem hexLowerChars_getD_hex (i : Nat) (h : i < 16) :
    isLowerHexDigit (hexLowerChars.getD i '0') = true := by
  interval_cases i <;> decide

theorem byteHex_hex (b : Nat) : ∀ c ∈ byteHex b, isLowerHexDigit c = true := by
  intro c hc
  simp only [byteHex, List.mem_cons, List.not_mem_nil, or_false] at hc
  rcases hc with hc | hc <;> subst hc <;>
    exact hexLowerChars_getD_hex _ (Nat.mod_lt _ (by decide))

theorem hexEncode_mem (bs : List Nat) : ∀ c ∈ hexEncode bs, isLowerHexDigit c = true := by
  induction bs with
  | nil => intro c hc; cases hc
  | cons b rest ih =>
      intro c hc
      rcases List.mem_append.mp hc with hc | hc
      · exact byteHex_hex b c hc
      · exact ih c hc

theorem hexEncode_length (bs : List Nat) : (hexEncode bs).length = 2 * bs.length := by
  induction bs with
  | nil => rfl
  | cons b rest ih =>
      simp only [hexEncode, List.map_cons, concatAll, List.length_append, List.length_cons] at *
      simp [byteHex, ih]
      omega

theorem processBlock_length (hs block : List Nat) : (processBlock hs block).length = 8 := rfl

theorem processBlocks_length (fuel : Nat) :
    ∀ hs msg, hs.length = 8 → (processBlocks fuel hs msg).length = 8 := by
  induction fuel with
  | zero => intro hs msg h; exact h
  | succ n ih =>
      intro hs msg h
      cases msg with
      | nil => exact h
      | cons b rest => exact ih _ _ (processBlock_length hs _)

theorem concatAll_wordBytes_length (hs : List Nat) :
    (concatAll (hs.map wordBytes)).length = 4 * hs.length := by
  induction hs with
  | nil => rfl
  | cons w rest ih =>
      simp only [List.map_cons, concatAll, List.length_append, List.length_cons, ih]
      simp [wordBytes]
      omega

theorem sha256_length (msg : List Nat) : (sha256 msg).length = 32 := by
  unfold sha256
  rw [concatAll_wordBytes_length, processBlocks_length]
  rfl

theorem sign_request_data (api_secret : String) (timestamp : Nat) :
    (sign_request api_secret timestamp).data
      = hexEncode (sha256 (utf8Bytes
          ("timestamp=" ++ String.mk (natToDec timestamp) ++ api_secret))) := rfl

/-! ## Claim theorems: the signature string -/

/-- C3: for every timestamp and every secret, the string returned by
`sign_request` is exactly 64 characters long and every character is a
lowercase hexadecimal digit (0-9, a-f). -/
theorem sign_request_is_64_lower_hex (api_secret : String) (timestamp : Nat) :
    (sign_request api_secret timestamp).length = 64 ∧
    (sign_request api_secret timestamp).data.all isLowerHexDigit = true := by
  constructor
  · show (sign_request api_secret timestamp).data.length = 64
    rw [sign_request_data, hexEncode_length, sha256_length]
  · rw [List.all_eq_true]
    intro c hc
    rw [sign_request_data] at hc
    exact hexEncode_mem _ c hc

set_option maxRecDepth 40000 in
/-- C2: `sign_request` returns the lowercase hex SHA-256 digest of the UTF-8
bytes of `"timestamp=" ++ decimal(t) ++ secret`, and for secret `"abcd"` and
timestamp `1700000000` it returns the standard SHA-256 hex digest of the
byte string `"timestamp=1700000000abcd"`. -/
theorem sign_request_digest_and_golden :
    (∀ (api_secret : String) (timestamp : Nat),
        sign_request api_secret timestamp
          = sha256HexOfString ("timestamp=" ++ String.mk (natToDec timestamp) ++ api_secret)) ∧
    sign_request "abcd" 1700000000
      = "29886ed878035abc09e29f7e8ce19b01d9f3caa3ad0851d5d5c2aaa5ab812369" :=
  ⟨fun _ _ => rfl, by decide⟩

/-- C4: the signature is a pure, deterministic function of the API secret
and the timestamp: two runs agreeing on secret and timestamp produce the
same signature string. -/
theorem sign_request_deterministic (e1 e2 : Env) (t1 t2 : Nat)
    (hsec : e1.api_secret = e2.api_secret) (ht : t1 = t2) :
    signWithEnv e1 t1 = signWithEnv e2 t2 := by
  simp [signWithEnv, hsec, ht]

/-- Witness for C4 at concrete environments and timestamp. -/
theorem sign_request_deterministic_witness :
    signWithEnv ⟨"key-one", "abcd", "cloud-one"⟩ 5
      = signWithEnv ⟨"key-two", "abcd", "cloud-two"⟩ 5 :=
  sign_request_deterministic ⟨"key-one", "abcd", "cloud-one"⟩
    ⟨"key-two", "abcd", "cloud-two"⟩ 5 5 rfl rfl

/-- C10: the signature is independent of the API key and the cloud name:
two runs that agree on the secret and the timestamp but differ in key and
cloud produce identical `sign_request` outputs. -/
theorem sign_request_independent_of_key_cloud (e1 e2 : Env) (t : Nat)
    (hsec : e1.api_secret = e2.api_secret) :
    signWithEnv e1 t = signWithEnv e2 t := by
  simp [signWithEnv, hsec]

/-- Witness for C10 at concrete environments differing in key and cloud. -/
theorem sign_request_independent_of_key_cloud_witness :
    signWithEnv ⟨"111", "s3cr3t", "cloud-a"⟩ 1700000000
      = signWithEnv ⟨"222", "s3cr3t", "cloud-b"⟩ 1700000000 :=
  sign_request_independent_of_key_cloud ⟨"111", "s3cr3t", "cloud-a"⟩
    ⟨"222", "s3cr3t", "cloud-b"⟩ 1700000000 rfl

/-! ## Claim theorems: the endpoint -/

/-- C1 (code bug): the path selection ignores the visibility value.  The
bare-identifier patterns in the source's `match` bind instead of matching
the enum variants, so the first arm fires for every value: `Private` is
given the `upload` segment, the second arm is unreachable, and the two URIs
are identical instead of differing in the final path segment
(`spec_segment` records the mapping the spec and the unreachable arm
intend). -/
theorem generate_upload_endpoint_ignores_privacy :
    (∀ (env : Env) (t : Nat) (p : UploadPrivacy),
        generate_upload_endpoint env t p = generate_upload_endpoint env t UploadPrivacy.Public) ∧
    selected_segment UploadPrivacy.Private = "upload" ∧
    spec_segment UploadPrivacy.Private = "private" :=
  ⟨fun _ _ _ => rfl, rfl, rfl⟩

/-! ## Claim theorems: upload_media -/

/-- C7: when endpoint construction succeeds — the claim conditions on a
send occurring — and the send fails at the transport level, `upload_media`
returns an error carrying exactly the transport error's textual
description, and the result of a call depends only on the outcome of the
one HTTP exchange the call performs, so no retry can change it. -/
theorem upload_media_wraps_transport_failure (env : Env) (t : Nat) (p : UploadPrivacy)
    (file : List Nat) (transport transport2 : Uri → List Nat → Except SendError String)
    (m : String) (uri : Uri)
    (hgen : generate_upload_endpoint env t p = PanicOr.ok uri)
    (hfail : transport uri file = Except.error ⟨m⟩)
    (hagree : transport2 uri file = transport uri file) :
    upload_media env t p file transport = PanicOr.ok (Except.error m) ∧
    upload_media env t p file transport2 = upload_media env t p file transport := by
  constructor
  · simp [upload_media, hgen, hfail]
  · simp [upload_media, hgen, hagree]

set_option maxRecDepth 400000 in
/-- Witness for C7: a refused connection surfaces as the wrapped message. -/
theorem upload_media_wraps_transport_failure_witness :
    upload_media ⟨"key1", "abcd", "demo"⟩ 0 UploadPrivacy.Public []
        (fun _ _ => Except.error ⟨"connection refused"⟩)
      = PanicOr.ok (Except.error "connection refused") :=
  (upload_media_wraps_transport_failure ⟨"key1", "abcd", "demo"⟩ 0 UploadPrivacy.Public []
    (fun _ _ => Except.error ⟨"connection refused"⟩)
    (fun _ _ => Except.error ⟨"connection refused"⟩) "connection refused"
    ⟨"https", "api.cloudinary.com",
      ("/v1_1/demo/auto/upload?api_key=key1&timestamp=0&signature=a823b6ad0080462d72f249d9de4ec4f7ca0a1032e3978bf9777189194dd7cc6d").data⟩
    (by decide) rfl rfl).1

/-! ## Decoder lemmas for C8 -/

theorem findAssetId_skip (post : List (List Char × Json)) (s : List Char)
    (h : ¬ "asset_id".data ∈ post.map Prod.fst) : findAssetId post (some s) = Except.ok s := by
  induction post with
  | nil => rfl
  | cons kv rest ih =>
      obtain ⟨k, v⟩ := kv
      simp only [List.map_cons, List.mem_cons, not_or] at h
      simp only [findAssetId]
      rw [if_neg (fun he => h.1 he.symm)]
      exact ih h.2

theorem findAssetId_found (pre post : List (List Char × Json)) (s : List Char)
    (hpre : ¬ "asset_id".data ∈ pre.map Prod.fst)
    (hpost : ¬ "asset_id".data ∈ post.map Prod.fst) :
    findAssetId (pre ++ ("asset_id".data, Json.str s) :: post) none = Except.ok s := by
  induction pre with
  | nil =>
      simp only [List.nil_append, findAssetId, if_true]
      exact findAssetId_skip post s hpost
  | cons kv rest ih =>
      obtain ⟨k, v⟩ := kv
      simp only [List.map_cons, List.mem_cons, not_or] at hpre
      simp only [List.cons_append, findAssetId]
      rw [if_neg (fun he => hpre.1 he.symm)]
      exact ih hpre.2

theorem findAssetId_missing (fields : List (List Char × Json))
    (h : ¬ "asset_id".data ∈ fields.map Prod.fst) :
    findAssetId fields none = Except.error "missing field asset_id" := by
  induction fields with
  | nil => rfl
  | cons kv rest ih =>
      obtain ⟨k, v⟩ := kv
      simp only [List.map_cons, List.mem_cons, not_or] at h
      simp only [findAssetId]
      rw [if_neg (fun he => h.1 he.symm)]
      exact ih h.2

/-- C8: on transport success the body is decoded by `decodeUploadResponse`;
an object containing `asset_id` with a string value decodes to it no matter
what other fields surround it; a body the JSON parser rejects surfaces that
parse error to the caller; and an object without `asset_id` is an error. -/
theorem upload_media_response_decoding :
    (∀ (env : Env) (t : Nat) (p : UploadPrivacy) (file : List Nat)
        (transport : Uri → List Nat → Except SendError String) (body : String) (uri : Uri),
        generate_upload_endpoint env t p = PanicOr.ok uri →
        transport uri file = Except.ok body →
        upload_media env t p file transport = PanicOr.ok (decodeUploadResponse body)) ∧
    (∀ (pre post : List (List Char × Json)) (s : List Char),
        ¬ "asset_id".data ∈ pre.map Prod.fst → ¬ "asset_id".data ∈ post.map Prod.fst →
        decodeJson (Json.obj (pre ++ ("asset_id".data, Json.str s) :: post))
          = Except.ok ⟨String.mk s⟩) ∧
    (∀ (body : String) (e : String), parseJson body = Except.error e →
        decodeUploadResponse body = Except.error e) ∧
    (∀ fields : List (List Char × Json), ¬ "asset_id".data ∈ fields.map Prod.fst →
        decodeJson (Json.obj fields) = Except.error "missing field asset_id") := by
  refine ⟨?_, ?_, ?_, ?_⟩
  · intro env t p file transport body uri hgen h
    simp [upload_media, hgen, h]
  · intro pre post s hpre hpost
    simp [decodeJson, findAssetId_found pre post s hpre hpost, Except.map]
  · intro body e h
    simp [decodeUploadResponse, h]
  · intro fields h
    simp [decodeJson, findAssetId_missing fields h, Except.map]

set_option maxRecDepth 400000 in
/-- Witness for C8: a concrete success body, a concrete object with extra
fields around `asset_id`, a concrete malformed body, and a concrete object
lacking `asset_id`. -/
theorem upload_media_response_decoding_witness :
    upload_media ⟨"key1", "abcd", "demo"⟩ 0 UploadPrivacy.Public []
        (fun _ _ => Except.ok "\x7b\"asset_id\":\"a1\"\x7d")
      = PanicOr.ok (decodeUploadResponse "\x7b\"asset_id\":\"a1\"\x7d") ∧
    decodeJson (Json.obj ([("extra".data, Json.num "3".data)]
        ++ ("asset_id".data, Json.str "a1".data) :: [("more".data, Json.bool true)]))
      = Except.ok ⟨String.mk "a1".data⟩ ∧
    decodeUploadResponse "@bad" = Except.error "unexpected character" ∧
    decodeJson (Json.obj [("other".data, Json.str "x".data)])
      = Except.error "missing field asset_id" :=
  ⟨upload_media_response_decoding.1 ⟨"key1", "abcd", "demo"⟩ 0 UploadPrivacy.Public []
      (fun _ _ => Except.ok "\x7b\"asset_id\":\"a1\"\x7d") "\x7b\"asset_id\":\"a1\"\x7d"
      ⟨"https", "api.cloudinary.com",
        ("/v1_1/demo/auto/upload?api_key=key1&timestamp=0&signature=a823b6ad0080462d72f249d9de4ec4f7ca0a1032e3978bf9777189194dd7cc6d").data⟩
      (by decide) rfl,
   upload_media_response_decoding.2.1 [("extra".data, Json.num "3".data)]
      [("more".data, Json.bool true)] "a1".data (by decide) (by decide),
   upload_media_response_decoding.2.2.1 "@bad" "unexpected character" rfl,
   upload_media_response_decoding.2.2.2 [("other".data, Json.str "x".data)] (by decide)⟩

/-- C9: if any of the three credential environment variables is absent, the
call panics during lazy credential initialization and the HTTP exchange
count is zero: no upload attempt is ever issued without all three
credentials present. -/
theorem upload_media_app_missing_credentials (sysEnv : String → Option String) (now : Int)
    (p : UploadPrivacy) (file : List Nat)
    (transport : Uri → List Nat → Except SendError String)
    (h : sysEnv "CLOUDINARY_API_KEY" = none ∨ sysEnv "CLOUDINARY_API_SECRET" = none ∨
         sysEnv "CLOUDINARY_CLOUD_NAME" = none) :
    ∃ m, upload_media_app sysEnv now p file transport = (PanicOr.panicked m, 0) := by
  unfold upload_media_app
  cases hnow : epochSeconds now with
  | panicked m => exact ⟨m, rfl⟩
  | ok t =>
      simp only [loadEnvVar]
      cases hs : sysEnv "CLOUDINARY_API_SECRET" with
      | none => exact ⟨_, rfl⟩
      | some secret =>
          cases hc : sysEnv "CLOUDINARY_CLOUD_NAME" with
          | none => exact ⟨_, rfl⟩
          | some cloud =>
              cases hk : sysEnv "CLOUDINARY_API_KEY" with
              | none => exact ⟨_, rfl⟩
              | some key =>
                  rcases h with h | h | h
                  · rw [h] at hk; cases hk
                  · rw [h] at hs; cases hs
                  · rw [h] at hc; cases hc

/-- Witness for C9: an environment lacking the API key panics with zero
HTTP exchanges. -/
theorem upload_media_app_missing_credentials_witness :
    ∃ m, upload_media_app
        (fun n => if n = "CLOUDINARY_API_KEY" then none else some "v") 5
        UploadPrivacy.Public [] (fun _ _ => Except.error ⟨"unreachable"⟩)
      = (PanicOr.panicked m, 0) :=
  upload_media_app_missing_credentials
    (fun n => if n = "CLOUDINARY_API_KEY" then none else some "v") 5
    UploadPrivacy.Public [] (fun _ _ => Except.error ⟨"unreachable"⟩)
    (Or.inl (by decide))

/-! ## Decimal and splitting lemmas for C5 -/

theorem natToDecAux_zero (n : Nat) (acc : List Char) : natToDecAux 0 n acc = acc := rfl

theorem natToDecAux_succ (fuel n : Nat) (acc : List Char) :
    natToDecAux (fuel + 1) n acc
      = if n < 10 then decDigit n :: acc
        else natToDecAux fuel (n / 10) (decDigit n :: acc) := rfl

theorem decDigit_hex (n : Nat) : isLowerHexDigit (decDigit n) = true :=
  hexLowerChars_getD_hex _ (Nat.lt_of_lt_of_le (Nat.mod_lt _ (by decide)) (by decide))

theorem natToDecAux_mem (fuel : Nat) :
    ∀ n acc, (∀ c ∈ acc, isLowerHexDigit c = true) →
      ∀ c ∈ natToDecAux fuel n acc, isLowerHexDigit c = true := by
  induction fuel with
  | zero => intro n acc hacc c hc; exact hacc c hc
  | succ f ih =>
      intro n acc hacc c hc
      rw [natToDecAux_succ] at hc
      by_cases hn : n < 10
      · rw [if_pos hn] at hc
        rcases List.mem_cons.mp hc with hc | hc
        · subst hc; exact decDigit_hex n
        · exact hacc c hc
      · rw [if_neg hn] at hc
        refine ih (n / 10) (decDigit n :: acc) ?_ c hc
        intro d hd
        rcases List.mem_cons.mp hd with hd | hd
        · subst hd; exact decDigit_hex n
        · exact hacc d hd

theorem natToDec_mem (n : Nat) : ∀ c ∈ natToDec n, isLowerHexDigit c = true :=
  natToDecAux_mem (n + 1) n [] (by intro c hc; cases hc)

theorem natToDecAux_ne_nil (fuel : Nat) :
    ∀ n acc, natToDecAux (fuel + 1) n acc ≠ [] := by
  induction fuel with
  | zero =>
      intro n acc
      rw [natToDecAux_succ]
      by_cases hn : n < 10
      · rw [if_pos hn]; exact List.cons_ne_nil _ _
      · rw [if_neg hn, natToDecAux_zero]; exact List.cons_ne_nil _ _
  | succ f ih =>
      intro n acc
      rw [natToDecAux_succ]
      by_cases hn : n < 10
      · rw [if_pos hn]; exact List.cons_ne_nil _ _
      · rw [if_neg hn]; exact ih (n / 10) (decDigit n :: acc)

theorem natToDec_ne_nil (n : Nat) : natToDec n ≠ [] := natToDecAux_ne_nil n n []

theorem sign_request_data_ne_nil (api_secret : String) (t : Nat) :
    (sign_request api_secret t).data ≠ [] := by
  intro h
  have h64 : (sign_request api_secret t).data.length = 64 :=
    (sign_request_is_64_lower_hex api_secret t).1
  rw [h] at h64
  cases h64

theorem splitQ_append (P Q : List Char) (h : ¬ '?' ∈ P) :
    splitQ (P ++ '?' :: Q) = (P, Q) := by
  induction P with
  | nil => simp [splitQ]
  | cons c cs ih =>
      simp only [List.mem_cons, not_or] at h
      simp only [List.cons_append, splitQ, List.append_eq]
      rw [if_neg (fun he => h.1 he.symm), ih h.2]

theorem splitAmp_no_amp (a : List Char) (h : ¬ '&' ∈ a) : splitAmp a = [a] := by
  induction a with
  | nil => rfl
  | cons c cs ih =>
      simp only [List.mem_cons, not_or] at h
      simp only [splitAmp]
      rw [if_neg (fun he => h.1 he.symm), ih h.2]

theorem splitAmp_append (a b : List Char) (h : ¬ '&' ∈ a) :
    splitAmp (a ++ '&' :: b) = a :: splitAmp b := by
  induction a with
  | nil => simp [splitAmp]
  | cons c cs ih =>
      simp only [List.mem_cons, not_or] at h
      simp only [List.cons_append, splitAmp, List.append_eq]
      rw [if_neg (fun he => h.1 he.symm), ih h.2]

theorem splitFirstEq_append (k v : List Char) (h : ¬ '=' ∈ k) :
    splitFirstEq (k ++ '=' :: v) = (k, v) := by
  induction k with
  | nil => simp [splitFirstEq]
  | cons c cs ih =>
      simp only [List.mem_cons, not_or] at h
      simp only [List.cons_append, splitFirstEq, List.append_eq]
      rw [if_neg (fun he => h.1 he.symm), ih h.2]

theorem not_isEmpty_of_ne_nil {l : List Char} (h : l ≠ []) : (!l.isEmpty) = true := by
  cases l with
  | nil => exact absurd rfl h
  | cons c cs => rfl

theorem data_ne_nil_of_ne_empty (s : String) (h : s ≠ "") : s.data ≠ [] := by
  intro hd
  apply h
  cases s with
  | mk l => cases hd; rfl

/-- The formatted path-and-query string in canonical split form: the path
chunk, the question mark, and the three ampersand-separated query
parameters. -/
theorem formatPathAndQuery_eq (env : Env) (t : Nat) (p : UploadPrivacy) :
    formatPathAndQuery env t (selected_segment p)
      = ("/v1_1/".data ++ (env.cloud_name.data ++ "/auto/upload".data))
        ++ '?' :: (("api_key=".data ++ env.api_key.data)
          ++ '&' :: (("timestamp=".data ++ natToDec t)
            ++ '&' :: ("signature=".data ++ (sign_request env.api_secret t).data))) := by
  have e1 : ∀ R : List Char, "/auto/".data ++ ("upload".data ++ R) = "/auto/upload".data ++ R :=
    fun _ => rfl
  have e2 : ∀ R : List Char, "?api_key=".data ++ R = '?' :: ("api_key=".data ++ R) :=
    fun _ => rfl
  have e3 : ∀ R : List Char, "&timestamp=".data ++ R = '&' :: ("timestamp=".data ++ R) :=
    fun _ => rfl
  have e4 : ∀ R : List Char, "&signature=".data ++ R = '&' :: ("signature=".data ++ R) :=
    fun _ => rfl
  simp only [formatPathAndQuery, selected_segment,
    String.data_append, List.append_assoc, List.cons_append, List.nil_append,
    List.append_eq, e1, e2, e3, e4]

/-! ## Parse lemmas for the endpoint -/

theorem query_allowed_of_hex {c : Char} (h : isLowerHexDigit c = true) :
    queryAllowedChar c = true := by
  simp only [isLowerHexDigit, Bool.or_eq_true, Bool.and_eq_true, decide_eq_true_eq] at h
  simp only [queryAllowedChar, Bool.or_eq_true, Bool.and_eq_true, decide_eq_true_eq]
  rcases h with ⟨ha, hb⟩ | ⟨ha, hb⟩
  · exact Or.inl (Or.inl (Or.inr ⟨le_trans (by decide) ha, le_trans hb (by decide)⟩))
  · exact Or.inr ⟨le_trans (by decide) ha, le_trans hb (by decide)⟩

theorem pqScanPath_cons_q (Q : List Char) :
    pqScanPath ('?' :: Q) = (pqScanQuery Q).map (fun r => '?' :: r) := rfl

theorem pqScanQuery_ok (Q : List Char) (h : ∀ c ∈ Q, queryAllowedChar c = true) :
    pqScanQuery Q = Except.ok Q := by
  induction Q with
  | nil => rfl
  | cons c cs ih =>
      have hc := h c (List.mem_cons_self c cs)
      have hne : ¬ c = '#' := by intro he; subst he; exact absurd hc (by decide)
      simp only [pqScanQuery]
      rw [if_neg hne, if_pos hc, ih (fun d hd => h d (List.mem_cons_of_mem c hd))]
      rfl

theorem pqScanPath_append (P Q : List Char) (h : ∀ c ∈ P, pathAllowedChar c = true) :
    pqScanPath (P ++ '?' :: Q) = (pqScanQuery Q).map (fun r => P ++ '?' :: r) := by
  induction P with
  | nil =>
      simp only [List.nil_append, pqScanPath_cons_q]
  | cons c cs ih =>
      have hc := h c (List.mem_cons_self c cs)
      have h1 : ¬ c = '?' := by intro he; subst he; exact absurd hc (by decide)
      have h2 : ¬ c = '#' := by intro he; subst he; exact absurd hc (by decide)
      simp only [List.cons_append, pqScanPath, List.append_eq]
      rw [if_neg h1, if_neg h2, if_pos hc, ih (fun d hd => h d (List.mem_cons_of_mem c hd))]
      cases pqScanQuery Q <;> rfl

/-- The formatted path and query parses cleanly when the cloud name holds
only path-section bytes and the API key only query-section bytes: the
decimal timestamp, the hex signature and the literal template chunks are
always in range. -/
theorem parse_formatPathAndQuery (env : Env) (t : Nat) (p : UploadPrivacy)
    (hcloud : ∀ c ∈ env.cloud_name.data, pathAllowedChar c = true)
    (hkey : ∀ c ∈ env.api_key.data, queryAllowedChar c = true) :
    parsePathAndQuery (formatPathAndQuery env t (selected_segment p))
      = Except.ok (formatPathAndQuery env t (selected_segment p)) := by
  have hP : ∀ c ∈ ("/v1_1/".data ++ (env.cloud_name.data ++ "/auto/upload".data)),
      pathAllowedChar c = true := by
    intro c hm
    rcases List.mem_append.mp hm with hm | hm
    · exact (by decide : ∀ c ∈ "/v1_1/".data, pathAllowedChar c = true) c hm
    · rcases List.mem_append.mp hm with hm | hm
      · exact hcloud c hm
      · exact (by decide : ∀ c ∈ "/auto/upload".data, pathAllowedChar c = true) c hm
  have hQ : ∀ c ∈ (("api_key=".data ++ env.api_key.data)
      ++ '&' :: (("timestamp=".data ++ natToDec t)
        ++ '&' :: ("signature=".data ++ (sign_request env.api_secret t).data))),
      queryAllowedChar c = true := by
    intro c hm
    rcases List.mem_append.mp hm with hm | hm
    · rcases List.mem_append.mp hm with hm | hm
      · exact (by decide : ∀ c ∈ "api_key=".data, queryAllowedChar c = true) c hm
      · exact hkey c hm
    · rcases List.mem_cons.mp hm with hm | hm
      · subst hm; decide
      · rcases List.mem_append.mp hm with hm | hm
        · rcases List.mem_append.mp hm with hm | hm
          · exact (by decide : ∀ c ∈ "timestamp=".data, queryAllowedChar c = true) c hm
          · exact query_allowed_of_hex (natToDec_mem t c hm)
        · rcases List.mem_cons.mp hm with hm | hm
          · subst hm; decide
          · rcases List.mem_append.mp hm with hm | hm
            · exact (by decide : ∀ c ∈ "signature=".data, queryAllowedChar c = true) c hm
            · rw [sign_request_data] at hm
              exact query_allowed_of_hex (hexEncode_mem _ c hm)
  rw [formatPathAndQuery_eq env t p]
  show pqScanPath _ = _
  rw [pqScanPath_append _ _ hP, pqScanQuery_ok _ hQ]
  rfl

/-- C5 (amended): provided the ambient API key is non-empty, free of the
ampersand character and made of query-section bytes, and the cloud name is
made of path-section bytes, every visibility value yields a URI with scheme
`https`, authority `api.cloudinary.com`, a path starting with
`/v1_1/<cloud>/auto/`, and a query of exactly the three parameters
`api_key`, `timestamp`, `signature` in that literal order, each with a
non-empty value. -/
theorem endpointClaimCheck_holds (env : Env) (t : Nat) (p : UploadPrivacy)
    (h1 : env.api_key ≠ "")
    (h2 : ¬ '&' ∈ env.api_key.data)
    (h3 : env.cloud_name.data.all pathAllowedChar = true)
    (h4 : env.api_key.data.all queryAllowedChar = true) :
    endpointClaimCheck env t p = true := by
  have hcloud : ∀ c ∈ env.cloud_name.data, pathAllowedChar c = true := List.all_eq_true.mp h3
  have hkey : ∀ c ∈ env.api_key.data, queryAllowedChar c = true := List.all_eq_true.mp h4
  have h3q : ¬ '?' ∈ env.cloud_name.data := fun hm => absurd (hcloud '?' hm) (by decide)
  have hP : ¬ '?' ∈ ("/v1_1/".data ++ (env.cloud_name.data ++ "/auto/upload".data)) := by
    intro hm
    rcases List.mem_append.mp hm with hm | hm
    · exact absurd hm (by decide)
    · rcases List.mem_append.mp hm with hm | hm
      · exact h3q hm
      · exact absurd hm (by decide)
  have hA : ¬ '&' ∈ ("api_key=".data ++ env.api_key.data) := by
    intro hm
    rcases List.mem_append.mp hm with hm | hm
    · exact absurd hm (by decide)
    · exact h2 hm
  have hB : ¬ '&' ∈ ("timestamp=".data ++ natToDec t) := by
    intro hm
    rcases List.mem_append.mp hm with hm | hm
    · exact absurd hm (by decide)
    · exact absurd (natToDec_mem t '&' hm) (by decide)
  have hC : ¬ '&' ∈ ("signature=".data ++ (sign_request env.api_secret t).data) := by
    intro hm
    rcases List.mem_append.mp hm with hm | hm
    · exact absurd hm (by decide)
    · rw [sign_request_data] at hm
      exact absurd (hexEncode_mem _ '&' hm) (by decide)
  have hgen : generate_upload_endpoint env t p
      = PanicOr.ok ⟨"https", "api.cloudinary.com",
          formatPathAndQuery env t (selected_segment p)⟩ := by
    simp only [generate_upload_endpoint, parse_formatPathAndQuery env t p hcloud hkey]
  have hsplit : splitQ (formatPathAndQuery env t (selected_segment p))
      = ("/v1_1/".data ++ (env.cloud_name.data ++ "/auto/upload".data),
         ("api_key=".data ++ env.api_key.data)
           ++ '&' :: (("timestamp=".data ++ natToDec t)
             ++ '&' :: ("signature=".data ++ (sign_request env.api_secret t).data))) := by
    rw [formatPathAndQuery_eq]
    exact splitQ_append _ _ hP
  have hamp : splitAmp (("api_key=".data ++ env.api_key.data)
      ++ '&' :: (("timestamp=".data ++ natToDec t)
        ++ '&' :: ("signature=".data ++ (sign_request env.api_secret t).data)))
      = [("api_key=".data ++ env.api_key.data),
         ("timestamp=".data ++ natToDec t),
         ("signature=".data ++ (sign_request env.api_secret t).data)] := by
    rw [splitAmp_append _ _ hA, splitAmp_append _ _ hB, splitAmp_no_amp _ hC]
  have hfe1 : splitFirstEq ("api_key=".data ++ env.api_key.data)
      = ("api_key".data, env.api_key.data) := by
    have e : ("api_key=".data ++ env.api_key.data)
        = "api_key".data ++ '=' :: env.api_key.data := rfl
    rw [e]
    exact splitFirstEq_append _ _ (by decide)
  have hfe2 : splitFirstEq ("timestamp=".data ++ natToDec t)
      = ("timestamp".data, natToDec t) := by
    have e : ("timestamp=".data ++ natToDec t) = "timestamp".data ++ '=' :: natToDec t := rfl
    rw [e]
    exact splitFirstEq_append _ _ (by decide)
  have hfe3 : splitFirstEq ("signature=".data ++ (sign_request env.api_secret t).data)
      = ("signature".data, (sign_request env.api_secret t).data) := by
    have e : ("signature=".data ++ (sign_request env.api_secret t).data)
        = "signature".data ++ '=' :: (sign_request env.api_secret t).data := rfl
    rw [e]
    exact splitFirstEq_append _ _ (by decide)
  have hparse : parseQuery (("api_key=".data ++ env.api_key.data)
      ++ '&' :: (("timestamp=".data ++ natToDec t)
        ++ '&' :: ("signature=".data ++ (sign_request env.api_secret t).data)))
      = [("api_key".data, env.api_key.data),
         ("timestamp".data, natToDec t),
         ("signature".data, (sign_request env.api_secret t).data)] := by
    simp only [parseQuery, hamp, List.map_cons, List.map_nil, hfe1, hfe2, hfe3]
  have hpfx : ("/v1_1/" ++ env.cloud_name ++ "/auto/").data.isPrefixOf
      ("/v1_1/".data ++ (env.cloud_name.data ++ "/auto/upload".data)) = true := by
    have e : ("/v1_1/" ++ env.cloud_name ++ "/auto/").data ++ "upload".data
        = "/v1_1/".data ++ (env.cloud_name.data ++ "/auto/upload".data) := by
      simp only [String.data_append, List.append_assoc]
      rfl
    exact List.isPrefixOf_iff_prefix.mpr ⟨"upload".data, e⟩
  have hne1 : (!env.api_key.data.isEmpty) = true :=
    not_isEmpty_of_ne_nil (data_ne_nil_of_ne_empty _ h1)
  have hne2 : (!(natToDec t).isEmpty) = true := not_isEmpty_of_ne_nil (natToDec_ne_nil t)
  have hne3 : (!(sign_request env.api_secret t).data.isEmpty) = true :=
    not_isEmpty_of_ne_nil (sign_request_data_ne_nil _ t)
  simp only [endpointClaimCheck, hgen, uriPath, uriQuery, hsplit, hpfx, hparse,
    hne1, hne2, hne3, beq_self_eq_true, Bool.and_true, Bool.true_and, Bool.and_self]

set_option maxRecDepth 400000 in
/-- C5 counterexample: with an API key containing an ampersand-separated
extra pair and a cloud name containing a question mark, the URI built for
Public violates the claimed shape: the query does not consist of exactly
the three parameters with non-empty values and the path prefix check
fails. -/
theorem endpointClaimCheck_counterexample :
    endpointClaimCheck ⟨"&x=y", "abcd", "?d"⟩ 0 UploadPrivacy.Public = false := by decide

set_option maxRecDepth 400000 in
/-- Witness for the amended C5 at a concrete well-formed environment. -/
theorem endpointClaimCheck_holds_witness :
    endpointClaimCheck ⟨"key1", "abcd", "demo"⟩ 1700000000 UploadPrivacy.Public = true :=
  endpointClaimCheck_holds ⟨"key1", "abcd", "demo"⟩ 1700000000 UploadPrivacy.Public
    (by decide) (by decide) (by decide) (by decide)

set_option maxRecDepth 400000 in
/-- C6 counterexample: an API key containing a space — a byte the
path-and-query parser rejects — makes endpoint construction panic at the
`parse().unwrap()` even though the clock, 5 seconds past the epoch, is
valid: a post-epoch clock alone does not guarantee a URI. -/
theorem generate_upload_endpoint_clock_counterexample :
    generate_upload_endpoint_clock ⟨"a b", "abcd", "demo"⟩ 5 UploadPrivacy.Public
      = PanicOr.panicked "InvalidUriChar" := by decide

/-- C6 (amended): endpoint construction has no recoverable error channel: a
clock before the Unix epoch panics rather than returning an error value,
and — provided the interpolated credentials hold only bytes the
path-and-query parser accepts, the parse unwrap being the one other panic —
a clock at or after the epoch returns the URI. -/
theorem generate_upload_endpoint_clock_behavior (env : Env) (now : Int) (p : UploadPrivacy) :
    (now < 0 → generate_upload_endpoint_clock env now p
        = PanicOr.panicked "SystemTimeError") ∧
    (0 ≤ now → env.cloud_name.data.all pathAllowedChar = true →
        env.api_key.data.all queryAllowedChar = true →
        generate_upload_endpoint_clock env now p
          = PanicOr.ok ⟨"https", "api.cloudinary.com",
              formatPathAndQuery env now.toNat (selected_segment p)⟩) := by
  refine ⟨fun h => ?_, fun h hc hk => ?_⟩
  · simp [generate_upload_endpoint_clock, epochSeconds, h]
  · simp only [generate_upload_endpoint_clock, epochSeconds,
      if_neg (show ¬ now < 0 by omega)]
    simp only [generate_upload_endpoint,
      parse_formatPathAndQuery env now.toNat p (List.all_eq_true.mp hc) (List.all_eq_true.mp hk)]

set_option maxRecDepth 400000 in
/-- Witness for the amended C6: a pre-epoch clock panics and a post-epoch
clock with clean credentials yields the URI. -/
theorem generate_upload_endpoint_clock_behavior_witness :
    (generate_upload_endpoint_clock ⟨"key1", "abcd", "demo"⟩ (-3) UploadPrivacy.Public
        = PanicOr.panicked "SystemTimeError") ∧
    (generate_upload_endpoint_clock ⟨"key1", "abcd", "demo"⟩ 5 UploadPrivacy.Public
        = PanicOr.ok ⟨"https", "api.cloudinary.com",
            formatPathAndQuery ⟨"key1", "abcd", "demo"⟩ (Int.toNat 5)
              (selected_segment UploadPrivacy.Public)⟩) :=
  ⟨(generate_upload_endpoint_clock_behavior ⟨"key1", "abcd", "demo"⟩ (-3) UploadPrivacy.Public).1
      (by decide),
   (generate_upload_endpoint_clock_behavior ⟨"key1", "abcd", "demo"⟩ 5 UploadPrivacy.Public).2
      (by decide) (by decide) (by decide)⟩

end Cloudinary
